import Mathlib

/-!
Verification of the ChatGenius real-time messaging hub.

Server side: the WebSocket portion of src/server/routes.ts — the in-memory
connection registry, presence store, broadcast router, and the new_message
intake and confirmation protocol.

Client side: the useWebSocket hook in src/client/src/lib (the reconciliation
engine merging optimistic placeholders with confirmed and broadcast messages,
and the reconnect backoff decision).

JavaScript Maps are modelled as insertion-ordered association lists, JSON
optional fields as Option, timestamps as Nat, and connection handles as Nat
ids. Transport behaviour is a pair of predicates giving, per connection,
whether readyState is OPEN and whether a send succeeds; a failing send in the
source raises and is caught, here it is the sendOk-false branch.
-/

namespace ChatGenius

/-! ### JavaScript Map model: insertion-ordered association lists -/

def mapGet {α β : Type} [DecidableEq α] (k : α) : List (α × β) → Option β
  | [] => none
  | (k', v) :: rest => if k' = k then some v else mapGet k rest

def mapSet {α β : Type} [DecidableEq α] (k : α) (v : β) : List (α × β) → List (α × β)
  | [] => [(k, v)]
  | (k', v') :: rest => if k' = k then (k, v) :: rest else (k', v') :: mapSet k v rest

def mapDel {α β : Type} [DecidableEq α] (k : α) : List (α × β) → List (α × β)
  | [] => []
  | (k', v) :: rest => if k' = k then mapDel k rest else (k', v) :: mapDel k rest

/-- JavaScript truthiness of an optional string field: a missing field and the
empty string are both falsy. -/
def strTruthy : Option String → Bool
  | none => false
  | some s => s != ""

/-! ### Client-side data model (src/client/src/lib/types.ts and useWebSocket) -/

/-- Client-side view of one chat message (interface Message in types.ts). The
sender object is represented by its user id. -/
structure ClientMessage where
  id : String
  content : String
  senderId : String
  timestamp : Nat
  channelId : Option String := none
  dmId : Option String := none
  readBy : List String := []
  parentId : Option String := none
deriving Repr, DecidableEq

/-- Client-side wire event (interface WebSocketMessage in the useWebSocket
module). Fields optional in the interface are Options; userId defaults to the
empty string, which is falsy, when the event does not carry one. -/
structure ClientWSMessage where
  type : String
  userId : String := ""
  content : Option String := none
  channelId : Option String := none
  dmId : Option String := none
  timestamp : Option Nat := none
  status : Option String := none
  isTyping : Option Bool := none
  lastSeen : Option Nat := none
  readBy : Option (List String) := none
  id : Option String := none
  parentId : Option String := none
deriving Repr, DecidableEq

/-- Models the source check id.startsWith("temp_"), as a character-list
test of the same predicate. -/
def isTempId (s : String) : Bool := "temp_".data.isPrefixOf s.data

/-- The stable ascending sort by timestamp that the source performs with
Array.sort comparing getTime values; insertion sort on a total preorder is
stable, like the sort of the JavaScript runtime. -/
def sortByTimestamp (l : List ClientMessage) : List ClientMessage :=
  List.insertionSort (fun a b => a.timestamp ≤ b.timestamp) l

/-- The case new_message of socket.onmessage in useWebSocket: the update
applied by setMessages to the previous list. The sender is resolved from
mockUsers by data.userId; it is represented here by the id itself. -/
def applyNewMessage (nowFallback : Nat) (data : ClientWSMessage)
    (prev : List ClientMessage) : List ClientMessage :=
  if strTruthy data.content = false ∨ data.userId = "" ∨ strTruthy data.id = false then prev
  else
    let newMessage : ClientMessage :=
      { id := data.id.getD "", content := data.content.getD "",
        senderId := data.userId,
        timestamp := data.timestamp.getD nowFallback,
        channelId := data.channelId, dmId := data.dmId,
        readBy := data.readBy.getD [], parentId := data.parentId }
    if prev.any (fun m => m.id == newMessage.id) then prev
    else
      let filtered := prev.filter
        (fun m => if isTempId m.id then m.content != newMessage.content else true)
      sortByTimestamp (filtered ++ [newMessage])

/-- The case message_confirmed of socket.onmessage in useWebSocket: the update
applied by setMessages. localUserId stands for mockUsers[0].id. The handler
also deletes data.content from the pendingMessages set; that side state is not
read by the list update and is omitted here. -/
def applyMessageConfirmed (nowFallback : Nat) (localUserId : String)
    (data : ClientWSMessage) (prev : List ClientMessage) : List ClientMessage :=
  if strTruthy data.id = false ∨ strTruthy data.content = false then prev
  else
    let filtered := prev.filter
      (fun m => if isTempId m.id then m.content != data.content.getD "" else true)
    let confirmedMessage : ClientMessage :=
      { id := data.id.getD "", content := data.content.getD "",
        senderId := localUserId,
        timestamp := data.timestamp.getD nowFallback,
        channelId := data.channelId, dmId := data.dmId,
        readBy := [localUserId], parentId := data.parentId }
    sortByTimestamp (filtered ++ [confirmedMessage])

/-- The optimistic append performed by sendMessage in useWebSocket for an
outbound new_message: a placeholder with id temp_ followed by Date.now() is
appended and the list re-sorted. -/
def sendMessageLocal (now : Nat) (localUserId : String) (content : String)
    (channelId dmId : Option String) (prev : List ClientMessage) : List ClientMessage :=
  sortByTimestamp (prev ++
    [{ id := "temp_" ++ toString now, content := content, senderId := localUserId,
       timestamp := now, channelId := channelId, dmId := dmId,
       readBy := [localUserId] }])

/-- Whitespace trimming of JavaScript String.prototype.trim, modelled over
the character list: the spec validates message content as non-empty after
trimming, so this function expresses that check. -/
def jsTrim (s : String) : String :=
  ⟨((s.data.dropWhile Char.isWhitespace).reverse.dropWhile Char.isWhitespace).reverse⟩

/-- The reconnect decision taken in socket.onclose from the current
retryCount: the delay of the reconnect attempt it schedules, or none when
automatic retrying is abandoned. -/
def reconnectDelay (retryCount : Nat) : Option Nat :=
  if retryCount < 5 then some (min (1000 * 2 ^ retryCount) 10000) else none

/-! ### Server-side data model (src/server/routes.ts, WebSocket section) -/

/-- Server wire event (interface WebSocketMessage in routes.ts). userId is
required by the interface; events the server emits without one, such as
message_confirmed and connection_established, carry the empty string here. -/
structure WSMessage where
  type : String
  userId : String := ""
  content : Option String := none
  channelId : Option String := none
  dmId : Option String := none
  timestamp : Nat := 0
  status : Option String := none
  isTyping : Option Bool := none
  lastSeen : Option Nat := none
  readBy : Option (List String) := none
  id : Option String := none
  parentId : Option String := none
  messageId : Option String := none
deriving Repr, DecidableEq

/-- The in-memory state of the hub: the messagesInMemory log, the clients
registry (a Map from WebSocket to userId; connections are Nat handles), the
userPresenceInMemory store (userId to status and lastSeen) and the
pendingMessages map. -/
structure ServerState where
  messagesInMemory : List WSMessage := []
  clients : List (Nat × String) := []
  userPresence : List (String × (String × Nat)) := []
  pendingMessages : List (String × WSMessage) := []
deriving Repr, DecidableEq

/-- The presence_update event that cleanupClient broadcasts after evicting the
connection of the given user. -/
def offlineEvent (userId : String) (now : Nat) : WSMessage :=
  { type := "presence_update", userId := userId, status := some "offline", timestamp := now }

/-- One broadcastMessage fan-out pass: deliver msg to every snapshot entry
except excl, skipping entries no longer in the registry (Map.forEach
semantics) and connections whose readyState is not OPEN. A failing send runs
the inlined cleanupClient: eviction, presence set to offline, and a nested
broadcast of the offline presence event to the new registry, after which the
pass continues with the remaining snapshot. The fuel argument only forces
termination of the eviction cascade; the theorems below either hold for every
fuel or assume enoughFuel, which the top-level call sites can always satisfy.
Returns the new state and the chronological log of delivered
(connection, event) pairs. -/
def broadcastLoop (connOpen connSendOk : Nat → Bool) (now : Nat) :
    Nat → WSMessage → Option Nat → List (Nat × String) → ServerState →
      ServerState × List (Nat × WSMessage)
  | 0, _, _, _, st => (st, [])
  | _ + 1, _, _, [], st => (st, [])
  | fuel + 1, msg, excl, (ws, _) :: rest, st =>
    if (mapGet ws st.clients).isSome ∧ some ws ≠ excl ∧ connOpen ws = true then
      if connSendOk ws = true then
        let r := broadcastLoop connOpen connSendOk now fuel msg excl rest st
        (r.1, (ws, msg) :: r.2)
      else
        match mapGet ws st.clients with
        | none => (st, [])
        | some userId =>
          let st1 : ServerState :=
            { st with clients := mapDel ws st.clients,
                      userPresence := mapSet userId ("offline", now) st.userPresence }
          let r1 := broadcastLoop connOpen connSendOk now fuel (offlineEvent userId now)
            none st1.clients st1
          let r2 := broadcastLoop connOpen connSendOk now fuel msg excl rest r1.1
          (r2.1, r1.2 ++ r2.2)
    else broadcastLoop connOpen connSendOk now fuel msg excl rest st

/-- Fuel sufficient for a broadcast over the given snapshot and state: the
eviction cascade is bounded by the registry size, so the snapshot length plus
the square of the registry size, strictly below fuel, is enough. -/
def enoughFuel (fuel : Nat) (snap clientsNow : List (Nat × String)) : Prop :=
  snap.length + clientsNow.length * clientsNow.length < fuel

/-- The broadcastMessage function of routes.ts: fan-out of one event over the
current registry. -/
def broadcastMessage (connOpen connSendOk : Nat → Bool) (now fuel : Nat)
    (msg : WSMessage) (excl : Option Nat) (st : ServerState) :
    ServerState × List (Nat × WSMessage) :=
  broadcastLoop connOpen connSendOk now fuel msg excl st.clients st

/-- The cleanupClient function of routes.ts: look the connection up and, when
present, delete it from the registry, mark its user offline in the presence
store, and broadcast the presence offline event with no exclusion. -/
def cleanupClient (connOpen connSendOk : Nat → Bool) (now fuel : Nat) (ws : Nat)
    (st : ServerState) : ServerState × List (Nat × WSMessage) :=
  match mapGet ws st.clients with
  | none => (st, [])
  | some userId =>
    let st1 : ServerState :=
      { st with clients := mapDel ws st.clients,
                userPresence := mapSet userId ("offline", now) st.userPresence }
    broadcastLoop connOpen connSendOk now fuel (offlineEvent userId now) none st1.clients st1

/-- The locally synthesized message id, msg_ followed by Date.now() and a
random suffix, exactly as generated in the new_message case. -/
def mkMessageId (now : Nat) (rand : String) : String :=
  "msg_" ++ toString now ++ "_" ++ rand

/-- The canonical message record built in the new_message case: the inbound
event spread with the hub-assigned id, the receive timestamp, and readBy
seeded with the sender. -/
def canonicalMessage (msg : WSMessage) (now : Nat) (rand : String) : WSMessage :=
  { msg with id := some (mkMessageId now rand), timestamp := now,
             readBy := some [msg.userId] }

/-- The message_confirmed reply sent to the originating connection only. -/
def confirmEvent (msg : WSMessage) (now : Nat) (rand : String) : WSMessage :=
  { type := "message_confirmed", id := some (mkMessageId now rand),
    content := msg.content, channelId := msg.channelId, dmId := msg.dmId,
    parentId := msg.parentId, timestamp := now }

/-- The ws.on message handler of routes.ts: drop events without type or
userId, record the self-declared identity in the registry, then dispatch on
the event type. now is the receive timestamp and rand the random id suffix
drawn in the new_message case; connSendOk ws false models a throwing ws.send,
which the catch block answers by popping the pushed message and dropping the
pending entry. Returns the new state and the chronological send log, the
direct confirmation reply included. -/
def handleWsMessage (connOpen connSendOk : Nat → Bool) (now fuel : Nat) (rand : String)
    (ws : Nat) (msg : WSMessage) (st : ServerState) :
    ServerState × List (Nat × WSMessage) :=
  if msg.type = "" ∨ msg.userId = "" then (st, [])
  else
    let st0 : ServerState := { st with clients := mapSet ws msg.userId st.clients }
    if msg.type = "new_message" then
      if strTruthy msg.content = false then (st0, [])
      else
        let messageId := mkMessageId now rand
        let newMessage := canonicalMessage msg now rand
        let st1 : ServerState :=
          { st0 with messagesInMemory := st0.messagesInMemory ++ [newMessage],
                     pendingMessages := mapSet messageId newMessage st0.pendingMessages }
        if connSendOk ws = true then
          let r := broadcastMessage connOpen connSendOk now fuel newMessage (some ws) st1
          ({ r.1 with pendingMessages := mapDel messageId r.1.pendingMessages },
            (ws, confirmEvent msg now rand) :: r.2)
        else
          ({ st1 with messagesInMemory := st1.messagesInMemory.dropLast,
                      pendingMessages := mapDel messageId st1.pendingMessages }, [])
    else if msg.type = "presence_update" then
      if strTruthy msg.status = false then (st0, [])
      else
        let st1 : ServerState :=
          { st0 with userPresence := mapSet msg.userId (msg.status.getD "", now) st0.userPresence }
        broadcastMessage connOpen connSendOk now fuel
          { type := "presence_update", userId := msg.userId, status := msg.status,
            lastSeen := some now, timestamp := now } none st1
    else if msg.type = "typing_indicator" then
      broadcastMessage connOpen connSendOk now fuel
        { type := "typing_indicator", userId := msg.userId, channelId := msg.channelId,
          dmId := msg.dmId, isTyping := msg.isTyping, timestamp := now } (some ws) st0
    else
      broadcastMessage connOpen connSendOk now fuel msg (some ws) st0

/-! ### Helper lemmas on the Map model -/

theorem mapGet_mapSet_self {α β : Type} [DecidableEq α] (k : α) (v : β) :
    ∀ l : List (α × β), mapGet k (mapSet k v l) = some v
  | [] => by simp [mapGet, mapSet]
  | (k', v') :: rest => by
    by_cases h : k' = k
    · simp [mapGet, mapSet, h]
    · simp [mapGet, mapSet, h, mapGet_mapSet_self k v rest]

theorem mapGet_mapSet_ne {α β : Type} [DecidableEq α] {k k' : α} (v : β) (h : k' ≠ k) :
    ∀ l : List (α × β), mapGet k' (mapSet k v l) = mapGet k' l
  | [] => by simp [mapGet, mapSet, Ne.symm h]
  | (a, b) :: rest => by
    by_cases ha : a = k
    · subst ha
      simp [mapGet, mapSet, Ne.symm h]
    · simp only [mapSet, if_neg ha, mapGet]
      by_cases hb : a = k'
      · simp [hb]
      · simp [hb, mapGet_mapSet_ne v h rest]

theorem mapGet_mapDel_self {α β : Type} [DecidableEq α] (k : α) :
    ∀ l : List (α × β), mapGet k (mapDel k l) = none
  | [] => rfl
  | (a, b) :: rest => by
    by_cases ha : a = k
    · simp [mapDel, ha, mapGet_mapDel_self k rest]
    · simp [mapDel, mapGet, ha, mapGet_mapDel_self k rest]

theorem mapGet_mapDel_ne {α β : Type} [DecidableEq α] {k k' : α} (h : k' ≠ k) :
    ∀ l : List (α × β), mapGet k' (mapDel k l) = mapGet k' l
  | [] => rfl
  | (a, b) :: rest => by
    by_cases ha : a = k
    · subst ha
      simp [mapDel, mapGet, Ne.symm h, mapGet_mapDel_ne h rest]
    · simp only [mapDel, if_neg ha, mapGet]
      by_cases hb : a = k'
      · simp [hb]
      · simp [hb, mapGet_mapDel_ne h rest]

theorem mapDel_length_le {α β : Type} [DecidableEq α] (k : α) :
    ∀ l : List (α × β), (mapDel k l).length ≤ l.length
  | [] => le_refl _
  | (a, b) :: rest => by
    by_cases ha : a = k
    · simp only [mapDel, if_pos ha]
      exact Nat.le_succ_of_le (mapDel_length_le k rest)
    · simp only [mapDel, if_neg ha, List.length_cons]
      exact Nat.succ_le_succ (mapDel_length_le k rest)

theorem mapDel_length_lt {α β : Type} [DecidableEq α] (k : α) :
    ∀ l : List (α × β), (mapGet k l).isSome → (mapDel k l).length < l.length
  | [], h => by simp [mapGet] at h
  | (a, b) :: rest, h => by
    by_cases ha : a = k
    · simp only [mapDel, if_pos ha, List.length_cons]
      exact Nat.lt_succ_of_le (mapDel_length_le k rest)
    · simp only [mapGet, if_neg ha] at h
      simp only [mapDel, if_neg ha, List.length_cons]
      exact Nat.succ_lt_succ (mapDel_length_lt k rest h)

theorem mapDel_mapSet_of_none {α β : Type} [DecidableEq α] {k : α} (v : β) :
    ∀ l : List (α × β), mapGet k l = none → mapDel k (mapSet k v l) = l
  | [], _ => by simp [mapSet, mapDel]
  | (a, b) :: rest, h => by
    by_cases ha : a = k
    · simp [mapGet, ha] at h
    · simp only [mapGet, if_neg ha] at h
      simp [mapSet, mapDel, ha, mapDel_mapSet_of_none v rest h, Ne.symm ha]

theorem mapGet_isSome_of_mem {α β : Type} [DecidableEq α] {k : α} {v : β} :
    ∀ {l : List (α × β)}, (k, v) ∈ l → (mapGet k l).isSome
  | [], hm => by simp at hm
  | (a, b) :: rest, hm => by
    by_cases ha : a = k
    · simp [mapGet, ha]
    · simp only [mapGet, if_neg ha]
      rcases List.mem_cons.mp hm with h | h
      · injection h with h1 h2
        exact absurd h1.symm ha
      · exact mapGet_isSome_of_mem h

/-! ### Helper lemmas on the broadcast router -/

theorem broadcastLoop_clients_le (connOpen connSendOk : Nat → Bool) (now : Nat) :
    ∀ (fuel : Nat) (msg : WSMessage) (excl : Option Nat) (snap : List (Nat × String))
      (st : ServerState),
      (broadcastLoop connOpen connSendOk now fuel msg excl snap st).1.clients.length ≤
        st.clients.length
  | 0, _, _, _, _ => le_refl _
  | _ + 1, _, _, [], _ => le_refl _
  | fuel + 1, msg, excl, (ws, u) :: rest, st => by
    rw [broadcastLoop]
    split
    · split
      · exact broadcastLoop_clients_le connOpen connSendOk now fuel msg excl rest st
      · split
        · exact le_refl _
        · rename_i userId heq
          dsimp only
          refine le_trans (broadcastLoop_clients_le connOpen connSendOk now fuel msg excl rest _)
            (le_trans (broadcastLoop_clients_le connOpen connSendOk now fuel _ none _ _) ?_)
          exact mapDel_length_le ws st.clients
    · exact broadcastLoop_clients_le connOpen connSendOk now fuel msg excl rest st

theorem broadcastLoop_untouched (connOpen connSendOk : Nat → Bool) (now : Nat) :
    ∀ (fuel : Nat) (msg : WSMessage) (excl : Option Nat) (snap : List (Nat × String))
      (st : ServerState),
      (broadcastLoop connOpen connSendOk now fuel msg excl snap st).1.messagesInMemory =
          st.messagesInMemory ∧
        (broadcastLoop connOpen connSendOk now fuel msg excl snap st).1.pendingMessages =
          st.pendingMessages
  | 0, _, _, _, _ => ⟨rfl, rfl⟩
  | _ + 1, _, _, [], _ => ⟨rfl, rfl⟩
  | fuel + 1, msg, excl, (ws, u) :: rest, st => by
    rw [broadcastLoop]
    split
    · split
      · exact broadcastLoop_untouched connOpen connSendOk now fuel msg excl rest st
      · split
        · exact ⟨rfl, rfl⟩
        · rename_i userId heq
          dsimp only
          have h1 := broadcastLoop_untouched connOpen connSendOk now fuel
            (offlineEvent userId now) none
            (mapDel ws st.clients)
            { st with clients := mapDel ws st.clients,
                      userPresence := mapSet userId ("offline", now) st.userPresence }
          have h2 := broadcastLoop_untouched connOpen connSendOk now fuel msg excl rest
            (broadcastLoop connOpen connSendOk now fuel (offlineEvent userId now) none
              (mapDel ws st.clients)
              { st with clients := mapDel ws st.clients,
                        userPresence := mapSet userId ("offline", now) st.userPresence }).1
          exact ⟨h2.1.trans h1.1, h2.2.trans h1.2⟩
    · exact broadcastLoop_untouched connOpen connSendOk now fuel msg excl rest st

theorem broadcastLoop_log_presence (connOpen connSendOk : Nat → Bool) (now : Nat) :
    ∀ (fuel : Nat) (msg : WSMessage) (excl : Option Nat) (snap : List (Nat × String))
      (st : ServerState), msg.type = "presence_update" →
      ∀ e ∈ (broadcastLoop connOpen connSendOk now fuel msg excl snap st).2,
        e.2.type = "presence_update"
  | 0, _, _, _, _ => by intro _ e he; simp [broadcastLoop] at he
  | _ + 1, _, _, [], _ => by intro _ e he; simp [broadcastLoop] at he
  | fuel + 1, msg, excl, (ws, u) :: rest, st => by
    intro hty e he
    rw [broadcastLoop] at he
    split at he
    · split at he
      · dsimp only at he
        rcases List.mem_cons.mp he with h | h
        · subst h; exact hty
        · exact broadcastLoop_log_presence connOpen connSendOk now fuel msg excl rest st hty e h
      · split at he
        · simp at he
        · rename_i userId heq
          dsimp only at he
          rcases List.mem_append.mp he with h | h
          · exact broadcastLoop_log_presence connOpen connSendOk now fuel
              (offlineEvent userId now) none _ _ rfl e h
          · exact broadcastLoop_log_presence connOpen connSendOk now fuel msg excl rest _ hty e h
    · exact broadcastLoop_log_presence connOpen connSendOk now fuel msg excl rest st hty e he

theorem broadcastLoop_log_char (connOpen connSendOk : Nat → Bool) (now : Nat) :
    ∀ (fuel : Nat) (msg : WSMessage) (excl : Option Nat) (snap : List (Nat × String))
      (st : ServerState),
      ∀ e ∈ (broadcastLoop connOpen connSendOk now fuel msg excl snap st).2,
        e.2.type = "presence_update" ∨
          (e.2 = msg ∧ some e.1 ≠ excl ∧ connOpen e.1 = true ∧ connSendOk e.1 = true ∧
            e.1 ∈ snap.map Prod.fst)
  | 0, _, _, _, _ => by intro e he; simp [broadcastLoop] at he
  | _ + 1, _, _, [], _ => by intro e he; simp [broadcastLoop] at he
  | fuel + 1, msg, excl, (ws, u) :: rest, st => by
    intro e he
    rw [broadcastLoop] at he
    split at he
    · rename_i hcond
      split at he
      · rename_i hsend
        dsimp only at he
        rcases List.mem_cons.mp he with h | h
        · subst h
          exact Or.inr ⟨rfl, hcond.2.1, hcond.2.2, hsend, by simp⟩
        · rcases broadcastLoop_log_char connOpen connSendOk now fuel msg excl rest st e h with
            hp | ⟨h1, h2, h3, h4, h5⟩
          · exact Or.inl hp
          · exact Or.inr ⟨h1, h2, h3, h4, by simp [h5]⟩
      · split at he
        · simp at he
        · rename_i userId heq
          dsimp only at he
          rcases List.mem_append.mp he with h | h
          · exact Or.inl (broadcastLoop_log_presence connOpen connSendOk now fuel
              (offlineEvent userId now) none _ _ rfl e h)
          · rcases broadcastLoop_log_char connOpen connSendOk now fuel msg excl rest _ e h with
              hp | ⟨h1, h2, h3, h4, h5⟩
            · exact Or.inl hp
            · exact Or.inr ⟨h1, h2, h3, h4, by simp [h5]⟩
    · rcases broadcastLoop_log_char connOpen connSendOk now fuel msg excl rest st e he with
        hp | ⟨h1, h2, h3, h4, h5⟩
      · exact Or.inl hp
      · exact Or.inr ⟨h1, h2, h3, h4, by simp [h5]⟩

theorem broadcastLoop_mapGet_sendOk (connOpen connSendOk : Nat → Bool) (now : Nat) :
    ∀ (fuel : Nat) (msg : WSMessage) (excl : Option Nat) (snap : List (Nat × String))
      (st : ServerState) (c : Nat), connSendOk c = true →
      mapGet c (broadcastLoop connOpen connSendOk now fuel msg excl snap st).1.clients =
        mapGet c st.clients
  | 0, _, _, _, _, _ => by intro _; rfl
  | _ + 1, _, _, [], _, _ => by intro _; rfl
  | fuel + 1, msg, excl, (ws, u) :: rest, st, c => by
    intro hc
    rw [broadcastLoop]
    split
    · rename_i hcond
      split
      · rename_i hsend
        exact broadcastLoop_mapGet_sendOk connOpen connSendOk now fuel msg excl rest st c hc
      · rename_i hsend
        split
        · rfl
        · rename_i userId heq
          dsimp only
          have hne : c ≠ ws := by
            intro h
            subst h
            rw [hc] at hsend
            exact hsend rfl
          rw [broadcastLoop_mapGet_sendOk connOpen connSendOk now fuel msg excl rest _ c hc,
            broadcastLoop_mapGet_sendOk connOpen connSendOk now fuel
              (offlineEvent userId now) none _ _ c hc]
          exact mapGet_mapDel_ne hne st.clients
    · exact broadcastLoop_mapGet_sendOk connOpen connSendOk now fuel msg excl rest st c hc

theorem broadcastLoop_mapGet_none (connOpen connSendOk : Nat → Bool) (now : Nat) :
    ∀ (fuel : Nat) (msg : WSMessage) (excl : Option Nat) (snap : List (Nat × String))
      (st : ServerState) (c : Nat), mapGet c st.clients = none →
      mapGet c (broadcastLoop connOpen connSendOk now fuel msg excl snap st).1.clients = none
  | 0, _, _, _, _, _ => by intro h; exact h
  | _ + 1, _, _, [], _, _ => by intro h; exact h
  | fuel + 1, msg, excl, (ws, u) :: rest, st, c => by
    intro hc
    rw [broadcastLoop]
    split
    · rename_i hcond
      split
      · exact broadcastLoop_mapGet_none connOpen connSendOk now fuel msg excl rest st c hc
      · split
        · exact hc
        · rename_i userId heq
          dsimp only
          have hne : c ≠ ws := by
            intro h
            subst h
            rw [hc] at heq
            exact Option.noConfusion heq
          refine broadcastLoop_mapGet_none connOpen connSendOk now fuel msg excl rest _ c
            (broadcastLoop_mapGet_none connOpen connSendOk now fuel
              (offlineEvent userId now) none _ _ c ?_)
          rw [mapGet_mapDel_ne hne st.clients]
          exact hc
    · exact broadcastLoop_mapGet_none connOpen connSendOk now fuel msg excl rest st c hc

theorem broadcastLoop_count_zero (connOpen connSendOk : Nat → Bool) (now fuel : Nat)
    (msg : WSMessage) (excl : Option Nat) (snap : List (Nat × String)) (st : ServerState)
    (c : Nat) (hty : msg.type ≠ "presence_update")
    (h : some c = excl ∨ c ∉ snap.map Prod.fst) :
    (broadcastLoop connOpen connSendOk now fuel msg excl snap st).2.countP
      (fun e => e.1 == c && e.2 == msg) = 0 := by
  refine List.countP_eq_zero.mpr ?_
  intro e he hpred
  simp only [Bool.and_eq_true, beq_iff_eq] at hpred
  rcases broadcastLoop_log_char connOpen connSendOk now fuel msg excl snap st e he with
    hp | ⟨h1, h2, h3, h4, h5⟩
  · exact hty (hpred.2 ▸ hp)
  · rcases h with h | h
    · exact h2 (by rw [hpred.1]; exact h)
    · exact h (hpred.1 ▸ h5)

theorem countP_presence_zero (msg : WSMessage) (c : Nat) {log : List (Nat × WSMessage)}
    (hty : msg.type ≠ "presence_update")
    (hall : ∀ e ∈ log, e.2.type = "presence_update") :
    log.countP (fun e => e.1 == c && e.2 == msg) = 0 :=
  List.countP_eq_zero.mpr (by
    intro e he hpred
    simp only [Bool.and_eq_true, beq_iff_eq] at hpred
    exact hty (hpred.2 ▸ hall e he))

theorem enoughFuel_tail {fuel : Nat} {p : Nat × String} {snap cl : List (Nat × String)}
    (h : enoughFuel (fuel + 1) (p :: snap) cl) : enoughFuel fuel snap cl := by
  unfold enoughFuel at h ⊢
  rw [List.length_cons] at h
  have h2 : snap.length + cl.length * cl.length + 1 < fuel + 1 := by
    calc snap.length + cl.length * cl.length + 1
        = snap.length + 1 + cl.length * cl.length := by ring
      _ < fuel + 1 := h
  exact Nat.lt_of_succ_lt_succ h2

theorem enoughFuel_cascade {fuel : Nat} {p : Nat × String} {snap cl cl' : List (Nat × String)}
    (h : enoughFuel (fuel + 1) (p :: snap) cl)
    (hlt : cl'.length < cl.length) : enoughFuel fuel snap cl' := by
  unfold enoughFuel at h ⊢
  rw [List.length_cons] at h
  have hmul : cl'.length * cl'.length < cl.length * cl.length := by
    nlinarith [hlt]
  have h2 : snap.length + cl.length * cl.length < fuel := by
    have h3 : snap.length + cl.length * cl.length + 1 < fuel + 1 := by
      calc snap.length + cl.length * cl.length + 1
          = snap.length + 1 + cl.length * cl.length := by ring
        _ < fuel + 1 := h
    exact Nat.lt_of_succ_lt_succ h3
  exact Nat.lt_trans (add_lt_add_left hmul _) h2

theorem broadcastLoop_count_one (connOpen connSendOk : Nat → Bool) (now : Nat) :
    ∀ (fuel : Nat) (msg : WSMessage) (excl : Option Nat) (snap : List (Nat × String))
      (st : ServerState) (c : Nat) (u : String),
      msg.type ≠ "presence_update" →
      (snap.map Prod.fst).Nodup →
      (c, u) ∈ snap → (mapGet c st.clients).isSome →
      some c ≠ excl → connOpen c = true → connSendOk c = true →
      enoughFuel fuel snap st.clients →
      (broadcastLoop connOpen connSendOk now fuel msg excl snap st).2.countP
        (fun e => e.1 == c && e.2 == msg) = 1
  | 0, msg, excl, snap, st, c, u => by
    intro _ _ _ _ _ _ _ hfuel
    exact absurd hfuel (Nat.not_lt_zero _)
  | _ + 1, msg, excl, [], st, c, u => by
    intro _ _ hmem _ _ _ _ _
    simp at hmem
  | fuel + 1, msg, excl, (ws, u') :: rest, st, c, u => by
    intro hty hnd hmem hget hexcl hopen hsend hfuel
    rw [broadcastLoop]
    by_cases hwc : ws = c
    · subst hwc
      rw [if_pos ⟨hget, hexcl, hopen⟩, if_pos hsend]
      dsimp only
      rw [List.countP_cons]
      have hnotin : ws ∉ rest.map Prod.fst := by
        simp only [List.map_cons, List.nodup_cons] at hnd
        exact hnd.1
      rw [broadcastLoop_count_zero connOpen connSendOk now fuel msg excl rest st ws hty
        (Or.inr hnotin)]
      simp
    · have hmem' : (c, u) ∈ rest := by
        rcases List.mem_cons.mp hmem with h | h
        · injection h with h1 h2
          exact absurd h1.symm hwc
        · exact h
      have hnd' : (rest.map Prod.fst).Nodup := by
        simp only [List.map_cons, List.nodup_cons] at hnd
        exact hnd.2
      split
      · rename_i hcond
        split
        · rename_i hsendws
          dsimp only
          rw [List.countP_cons]
          have hhead : ((ws, msg).1 == c && (ws, msg).2 == msg) = false := by
            simp [hwc]
          rw [hhead]
          rw [broadcastLoop_count_one connOpen connSendOk now fuel msg excl rest st c u
            hty hnd' hmem' hget hexcl hopen hsend (enoughFuel_tail hfuel)]
          simp
        · split
          · rename_i heq
            rw [heq] at hcond
            simp at hcond
          · rename_i userId heq
            dsimp only
            rw [List.countP_append]
            have hz1 := countP_presence_zero msg c hty
              (broadcastLoop_log_presence connOpen connSendOk now fuel
                (offlineEvent userId now) none (mapDel ws st.clients)
                { st with clients := mapDel ws st.clients,
                          userPresence := mapSet userId ("offline", now) st.userPresence }
                rfl)
            rw [hz1]
            have hlen1 : (mapDel ws st.clients).length < st.clients.length :=
              mapDel_length_lt ws st.clients (by rw [heq]; rfl)
            have hget' : (mapGet c (broadcastLoop connOpen connSendOk now fuel
                (offlineEvent userId now) none (mapDel ws st.clients)
                { st with clients := mapDel ws st.clients,
                          userPresence := mapSet userId ("offline", now) st.userPresence
                }).1.clients).isSome := by
              rw [broadcastLoop_mapGet_sendOk connOpen connSendOk now fuel
                (offlineEvent userId now) none _ _ c hsend]
              dsimp only
              rw [mapGet_mapDel_ne (fun h => hwc h.symm) st.clients]
              exact hget
            have hfe : enoughFuel fuel rest (broadcastLoop connOpen connSendOk now fuel
                (offlineEvent userId now) none (mapDel ws st.clients)
                { st with clients := mapDel ws st.clients,
                          userPresence := mapSet userId ("offline", now) st.userPresence
                }).1.clients :=
              enoughFuel_cascade hfuel
                (lt_of_le_of_lt (broadcastLoop_clients_le connOpen connSendOk now fuel
                  (offlineEvent userId now) none _ _) hlen1)
            rw [broadcastLoop_count_one connOpen connSendOk now fuel msg excl rest _ c u
              hty hnd' hmem' hget' hexcl hopen hsend hfe]
      · rename_i hcond
        exact broadcastLoop_count_one connOpen connSendOk now fuel msg excl rest st c u
          hty hnd' hmem' hget hexcl hopen hsend (enoughFuel_tail hfuel)

theorem broadcastLoop_evicts (connOpen connSendOk : Nat → Bool) (now : Nat) :
    ∀ (fuel : Nat) (msg : WSMessage) (excl : Option Nat) (snap : List (Nat × String))
      (st : ServerState) (c : Nat) (u : String),
      (c, u) ∈ snap → (mapGet c st.clients).isSome →
      some c ≠ excl → connOpen c = true → connSendOk c = false →
      enoughFuel fuel snap st.clients →
      mapGet c (broadcastLoop connOpen connSendOk now fuel msg excl snap st).1.clients = none
  | 0, msg, excl, snap, st, c, u => by
    intro _ _ _ _ _ hfuel
    exact absurd hfuel (Nat.not_lt_zero _)
  | _ + 1, msg, excl, [], st, c, u => by
    intro hmem _ _ _ _ _
    simp at hmem
  | fuel + 1, msg, excl, (ws, u') :: rest, st, c, u => by
    intro hmem hget hexcl hopen hsend hfuel
    rw [broadcastLoop]
    by_cases hwc : ws = c
    · subst hwc
      rw [if_pos ⟨hget, hexcl, hopen⟩, if_neg (by rw [hsend]; exact Bool.false_ne_true)]
      split
      · rename_i heq
        rw [heq] at hget
        simp at hget
      · rename_i userId heq
        dsimp only
        refine broadcastLoop_mapGet_none connOpen connSendOk now fuel msg excl rest _ ws
          (broadcastLoop_mapGet_none connOpen connSendOk now fuel
            (offlineEvent userId now) none _ _ ws ?_)
        exact mapGet_mapDel_self ws st.clients
    · have hmem' : (c, u) ∈ rest := by
        rcases List.mem_cons.mp hmem with h | h
        · injection h with h1 h2
          exact absurd h1.symm hwc
        · exact h
      split
      · rename_i hcond
        split
        · exact broadcastLoop_evicts connOpen connSendOk now fuel msg excl rest st c u
            hmem' hget hexcl hopen hsend (enoughFuel_tail hfuel)
        · split
          · rename_i heq
            rw [heq] at hcond
            simp at hcond
          · rename_i userId heq
            dsimp only
            have hlen1 : (mapDel ws st.clients).length < st.clients.length :=
              mapDel_length_lt ws st.clients (by rw [heq]; rfl)
            cases hr1 : mapGet c (broadcastLoop connOpen connSendOk now fuel
                (offlineEvent userId now) none (mapDel ws st.clients)
                { st with clients := mapDel ws st.clients,
                          userPresence := mapSet userId ("offline", now) st.userPresence
                }).1.clients with
            | none =>
              exact broadcastLoop_mapGet_none connOpen connSendOk now fuel msg excl rest _ c hr1
            | some v =>
              refine broadcastLoop_evicts connOpen connSendOk now fuel msg excl rest _ c u
                hmem' (by rw [hr1]; rfl) hexcl hopen hsend ?_
              exact enoughFuel_cascade hfuel
                (lt_of_le_of_lt (broadcastLoop_clients_le connOpen connSendOk now fuel
                  (offlineEvent userId now) none _ _) hlen1)
      · exact broadcastLoop_evicts connOpen connSendOk now fuel msg excl rest st c u
          hmem' hget hexcl hopen hsend (enoughFuel_tail hfuel)

/-! ### Helper lemmas, client side -/

theorem isPrefixOf_append_self : ∀ l t : List Char, l.isPrefixOf (l ++ t) = true
  | [], _ => by simp
  | c :: l, t => by
    simp only [List.cons_append, List.isPrefixOf_cons₂_self]
    exact isPrefixOf_append_self l t

theorem isTempId_append (s : String) : isTempId ("temp_" ++ s) = true := by
  simp only [isTempId, String.data_append]
  exact isPrefixOf_append_self _ _

theorem mem_sortByTimestamp {a : ClientMessage} {l : List ClientMessage} :
    a ∈ sortByTimestamp l ↔ a ∈ l :=
  (List.perm_insertionSort _ l).mem_iff

theorem countP_sortByTimestamp (p : ClientMessage → Bool) (l : List ClientMessage) :
    (sortByTimestamp l).countP p = l.countP p :=
  (List.perm_insertionSort _ l).countP_eq p

theorem applyNewMessage_dup (nowFallback : Nat) (data : ClientWSMessage)
    (prev : List ClientMessage)
    (hdup : ∃ m ∈ prev, m.id = data.id.getD "") :
    applyNewMessage nowFallback data prev = prev := by
  obtain ⟨m, hm, he⟩ := hdup
  rw [applyNewMessage]
  split
  · rfl
  · rw [if_pos (List.any_eq_true.mpr ⟨m, hm, by simp [he]⟩)]

theorem applyNewMessage_has_id (nowFallback : Nat) (data : ClientWSMessage)
    (prev : List ClientMessage)
    (hg : ¬(strTruthy data.content = false ∨ data.userId = "" ∨ strTruthy data.id = false)) :
    ∃ m ∈ applyNewMessage nowFallback data prev, m.id = data.id.getD "" := by
  rw [applyNewMessage, if_neg hg]
  dsimp only
  split
  · rename_i h
    obtain ⟨m, hm, he⟩ := List.any_eq_true.mp h
    exact ⟨m, hm, by simpa using he⟩
  · exact ⟨_, mem_sortByTimestamp.mpr (List.mem_append_right _ (List.mem_singleton.mpr rfl)),
      rfl⟩

/-! ### Claim theorems, client side -/

/-- C1, counterexample: applying the same message_confirmed event twice to the
empty message list yields a two-element list, while a single application
yields one element — the message_confirmed path of the reconciliation engine
performs no canonical-id duplicate check, so re-applying a confirmation is not
a no-op even though its canonical id already exists in the list. -/
theorem c1_confirmed_twice_ne_once :
    applyMessageConfirmed 0 "u1"
        { type := "message_confirmed", id := some "c1", content := some "hello",
          timestamp := some 5 }
        (applyMessageConfirmed 0 "u1"
          { type := "message_confirmed", id := some "c1", content := some "hello",
            timestamp := some 5 } []) ≠
      applyMessageConfirmed 0 "u1"
        { type := "message_confirmed", id := some "c1", content := some "hello",
          timestamp := some 5 } [] := by
  decide

/-- C1 (amended): reconciliation is idempotent for broadcast new_message
events — applying the same new_message event twice yields the same final list
as applying it once, because a new_message whose canonical id already exists
in the list is ignored. The analogous property fails for message_confirmed
events, which perform no duplicate check. -/
theorem c1_new_message_idempotent (nowFallback : Nat) (data : ClientWSMessage)
    (prev : List ClientMessage) :
    applyNewMessage nowFallback data (applyNewMessage nowFallback data prev) =
      applyNewMessage nowFallback data prev := by
  by_cases hg : strTruthy data.content = false ∨ data.userId = "" ∨ strTruthy data.id = false
  · conv_lhs => rw [applyNewMessage, if_pos hg]
  · exact applyNewMessage_dup nowFallback data _ (applyNewMessage_has_id nowFallback data prev hg)

/-- C7: after appending an optimistic placeholder for content hello and then
applying a message_confirmed event for content hello carrying canonical id
cid, the resulting list contains exactly one entry with content hello, and
that entry carries the canonical id cid rather than the temporary id, provided
no other entry with content hello was already present. -/
theorem c7_placeholder_replacement (l : List ClientMessage) (now nowFallback : Nat)
    (localUserId cid : String) (ch dm : Option String) (data : ClientWSMessage)
    (hl : ∀ m ∈ l, m.content ≠ "hello")
    (hid : data.id = some cid) (hcid : cid ≠ "")
    (hcontent : data.content = some "hello") :
    ((applyMessageConfirmed nowFallback localUserId data
        (sendMessageLocal now localUserId "hello" ch dm l)).countP
        (fun m => m.content == "hello") = 1) ∧
      ∀ m ∈ applyMessageConfirmed nowFallback localUserId data
          (sendMessageLocal now localUserId "hello" ch dm l),
        m.content = "hello" → m.id = cid := by
  have hguard : ¬(strTruthy data.id = false ∨ strTruthy data.content = false) := by
    simp [hid, hcontent, strTruthy, hcid]
  have hfilter : ∀ a ∈ (sendMessageLocal now localUserId "hello" ch dm l).filter
      (fun m => if isTempId m.id then m.content != data.content.getD "" else true),
      ¬ a.content = "hello" := by
    intro a ha hac
    rw [List.mem_filter] at ha
    obtain ⟨hmem, hP⟩ := ha
    rw [sendMessageLocal, mem_sortByTimestamp] at hmem
    rcases List.mem_append.mp hmem with hml | hmt
    · exact hl a hml hac
    · rw [List.mem_singleton] at hmt
      subst hmt
      rw [if_pos (isTempId_append (toString now))] at hP
      simp [hcontent] at hP
  rw [applyMessageConfirmed, if_neg hguard]
  constructor
  · rw [countP_sortByTimestamp, List.countP_append]
    have h0 : (List.filter
        (fun m => if isTempId m.id then m.content != data.content.getD "" else true)
        (sendMessageLocal now localUserId "hello" ch dm l)).countP
        (fun m => m.content == "hello") = 0 :=
      List.countP_eq_zero.mpr (fun a ha => by simpa using hfilter a ha)
    rw [h0]
    simp [hcontent]
  · intro m hm hc
    rw [mem_sortByTimestamp] at hm
    rcases List.mem_append.mp hm with hf | hc2
    · exact absurd hc (hfilter m hf)
    · rw [List.mem_singleton] at hc2
      subst hc2
      simp [hid]

/-- C7 witness: the concrete scenario with the empty starting list, the
placeholder appended at time 1, and a confirmation carrying canonical id c1. -/
theorem c7_placeholder_replacement_witness :
    ((applyMessageConfirmed 0 "u1"
        { type := "message_confirmed", id := some "c1", content := some "hello",
          timestamp := some 5 }
        (sendMessageLocal 1 "u1" "hello" none none [])).countP
        (fun m => m.content == "hello") = 1) ∧
      ∀ m ∈ applyMessageConfirmed 0 "u1"
          { type := "message_confirmed", id := some "c1", content := some "hello",
            timestamp := some 5 }
          (sendMessageLocal 1 "u1" "hello" none none []),
        m.content = "hello" → m.id = "c1" :=
  c7_placeholder_replacement [] 1 0 "u1" "c1" none none
    { type := "message_confirmed", id := some "c1", content := some "hello",
      timestamp := some 5 }
    (by simp) rfl (by decide) rfl

/-- C8: the delays of the five automatic reconnect attempts are exactly 1s,
2s, 4s, 8s and 10s (min of 1000 times 2 to the k and 10000 for attempt index
k), and from the fifth consecutive failure on no further reconnect is
scheduled. -/
theorem c8_reconnect_backoff :
    ((List.range 5).map reconnectDelay =
      [some 1000, some 2000, some 4000, some 8000, some 10000]) ∧
      ∀ k, 5 ≤ k → reconnectDelay k = none := by
  refine ⟨by decide, fun k hk => ?_⟩
  rw [reconnectDelay, if_neg (by omega)]

/-- C8 witness: the sixth close event, at retryCount 5, schedules nothing. -/
theorem c8_reconnect_backoff_witness :
    ((List.range 5).map reconnectDelay =
      [some 1000, some 2000, some 4000, some 8000, some 10000]) ∧
      reconnectDelay 5 = none :=
  ⟨c8_reconnect_backoff.1, c8_reconnect_backoff.2 5 (by decide)⟩

theorem canonicalMessage_type (msg : WSMessage) (now : Nat) (rand : String) :
    (canonicalMessage msg now rand).type = msg.type := rfl

theorem confirmEvent_type (msg : WSMessage) (now : Nat) (rand : String) :
    (confirmEvent msg now rand).type = "message_confirmed" := rfl

theorem handleWsMessage_accepted (connOpen connSendOk : Nat → Bool)
    (now fuel : Nat) (rand : String) (ws : Nat) (msg : WSMessage) (st : ServerState)
    (hty : msg.type = "new_message") (huid : msg.userId ≠ "")
    (hct : strTruthy msg.content = true) (hsend : connSendOk ws = true) :
    handleWsMessage connOpen connSendOk now fuel rand ws msg st =
      ({ (broadcastMessage connOpen connSendOk now fuel (canonicalMessage msg now rand)
            (some ws)
            { st with clients := mapSet ws msg.userId st.clients,
                      messagesInMemory :=
                        st.messagesInMemory ++ [canonicalMessage msg now rand],
                      pendingMessages :=
                        mapSet (mkMessageId now rand) (canonicalMessage msg now rand)
                          st.pendingMessages }).1 with
          pendingMessages :=
            mapDel (mkMessageId now rand)
              (broadcastMessage connOpen connSendOk now fuel (canonicalMessage msg now rand)
                (some ws)
                { st with clients := mapSet ws msg.userId st.clients,
                          messagesInMemory :=
                            st.messagesInMemory ++ [canonicalMessage msg now rand],
                          pendingMessages :=
                            mapSet (mkMessageId now rand) (canonicalMessage msg now rand)
                              st.pendingMessages }).1.pendingMessages },
        (ws, confirmEvent msg now rand) ::
          (broadcastMessage connOpen connSendOk now fuel (canonicalMessage msg now rand)
            (some ws)
            { st with clients := mapSet ws msg.userId st.clients,
                      messagesInMemory :=
                        st.messagesInMemory ++ [canonicalMessage msg now rand],
                      pendingMessages :=
                        mapSet (mkMessageId now rand) (canonicalMessage msg now rand)
                          st.pendingMessages }).2) := by
  rw [handleWsMessage, if_neg (by simp [hty, huid]), if_pos hty,
    if_neg (by simp [hct]), if_pos hsend]

/-! ### Claim theorems, server side -/

/-- C5: for every broadcastMessage call with excluded connection c over a
registry of distinct connection handles, c is never sent the event; every
other registered connection whose transport is open and whose sends succeed
is sent the event exactly once — even when other connections fail mid
fan-out — and every other registered open connection whose send fails is
evicted from the registry instead of aborting the remaining deliveries. -/
theorem c5_fanout_exclusion (connOpen connSendOk : Nat → Bool) (now fuel : Nat)
    (msg : WSMessage) (c : Nat) (st : ServerState)
    (hty : msg.type ≠ "presence_update")
    (hnd : (st.clients.map Prod.fst).Nodup)
    (hfuel : enoughFuel fuel st.clients st.clients) :
    ((broadcastMessage connOpen connSendOk now fuel msg (some c) st).2.countP
        (fun e => e.1 == c && e.2 == msg) = 0) ∧
      (∀ d ud, (d, ud) ∈ st.clients → d ≠ c → connOpen d = true → connSendOk d = true →
        (broadcastMessage connOpen connSendOk now fuel msg (some c) st).2.countP
          (fun e => e.1 == d && e.2 == msg) = 1) ∧
      (∀ d ud, (d, ud) ∈ st.clients → d ≠ c → connOpen d = true → connSendOk d = false →
        mapGet d (broadcastMessage connOpen connSendOk now fuel msg (some c) st).1.clients =
          none) := by
  refine ⟨?_, ?_, ?_⟩
  · exact broadcastLoop_count_zero connOpen connSendOk now fuel msg (some c) st.clients st c
      hty (Or.inl rfl)
  · intro d ud hm hd ho hs
    exact broadcastLoop_count_one connOpen connSendOk now fuel msg (some c) st.clients st d ud
      hty hnd hm (mapGet_isSome_of_mem hm) (by simpa using hd) ho hs hfuel
  · intro d ud hm hd ho hs
    exact broadcastLoop_evicts connOpen connSendOk now fuel msg (some c) st.clients st d ud
      hm (mapGet_isSome_of_mem hm) (by simpa using hd) ho hs hfuel

/-- C5 witness: three registered open connections, connection 2 with a broken
transport; broadcasting a new_message excluding connection 1 delivers exactly
once to connection 3 despite the mid fan-out failure of connection 2, delivers
nothing to connection 1, and evicts connection 2. -/
theorem c5_fanout_exclusion_witness :
    ((broadcastMessage (fun _ => true) (fun n => n != 2) 5 20
        { type := "new_message", userId := "jane" } (some 1)
        { clients := [(1, "jane"), (2, "bob"), (3, "eve")] }).2.countP
        (fun e => e.1 == 1 && e.2 == { type := "new_message", userId := "jane" }) = 0) ∧
      (∀ d ud, (d, ud) ∈ [(1, "jane"), (2, "bob"), (3, "eve")] → d ≠ 1 →
        (fun _ => true : Nat → Bool) d = true → (fun n => n != 2 : Nat → Bool) d = true →
        (broadcastMessage (fun _ => true) (fun n => n != 2) 5 20
          { type := "new_message", userId := "jane" } (some 1)
          { clients := [(1, "jane"), (2, "bob"), (3, "eve")] }).2.countP
          (fun e => e.1 == d && e.2 == { type := "new_message", userId := "jane" }) = 1) ∧
      (∀ d ud, (d, ud) ∈ [(1, "jane"), (2, "bob"), (3, "eve")] → d ≠ 1 →
        (fun _ => true : Nat → Bool) d = true → (fun n => n != 2 : Nat → Bool) d = false →
        mapGet d (broadcastMessage (fun _ => true) (fun n => n != 2) 5 20
          { type := "new_message", userId := "jane" } (some 1)
          { clients := [(1, "jane"), (2, "bob"), (3, "eve")] }).1.clients = none) :=
  c5_fanout_exclusion (fun _ => true) (fun n => n != 2) 5 20
    { type := "new_message", userId := "jane" } 1
    { clients := [(1, "jane"), (2, "bob"), (3, "eve")] }
    (by decide) (by decide) (by unfold enoughFuel; decide)

/-- C2: for every new_message accepted over a WebSocket connection — type and
sender present, content truthy, and a confirmation send that succeeds — the
server sends exactly one message_confirmed event to the originating
connection, never sends the originator the canonical new_message broadcast,
and sends every other registered connection that is open with a working
transport exactly one copy of the canonical new_message; rejected events send
neither (see the validation and atomicity theorems). -/
theorem c2_confirmation_uniqueness (connOpen connSendOk : Nat → Bool)
    (now fuel : Nat) (rand : String) (ws : Nat) (msg : WSMessage) (st : ServerState)
    (hty : msg.type = "new_message") (huid : msg.userId ≠ "")
    (hct : strTruthy msg.content = true)
    (hsend : connSendOk ws = true)
    (hnd : ((mapSet ws msg.userId st.clients).map Prod.fst).Nodup)
    (hfuel : enoughFuel fuel (mapSet ws msg.userId st.clients)
      (mapSet ws msg.userId st.clients)) :
    ((handleWsMessage connOpen connSendOk now fuel rand ws msg st).2.countP
        (fun e => e.1 == ws && e.2.type == "message_confirmed") = 1) ∧
      ((handleWsMessage connOpen connSendOk now fuel rand ws msg st).2.countP
        (fun e => e.1 == ws && e.2 == canonicalMessage msg now rand) = 0) ∧
      (∀ d ud, (d, ud) ∈ mapSet ws msg.userId st.clients → d ≠ ws →
        connOpen d = true → connSendOk d = true →
        (handleWsMessage connOpen connSendOk now fuel rand ws msg st).2.countP
          (fun e => e.1 == d && e.2 == canonicalMessage msg now rand) = 1) := by
  rw [handleWsMessage_accepted connOpen connSendOk now fuel rand ws msg st hty huid hct hsend]
  have htyc : (canonicalMessage msg now rand).type ≠ "presence_update" := by
    rw [canonicalMessage_type, hty]
    decide
  refine ⟨?_, ?_, ?_⟩
  · rw [List.countP_cons]
    have hz : (broadcastMessage connOpen connSendOk now fuel (canonicalMessage msg now rand)
        (some ws)
        { st with clients := mapSet ws msg.userId st.clients,
                  messagesInMemory := st.messagesInMemory ++ [canonicalMessage msg now rand],
                  pendingMessages := mapSet (mkMessageId now rand)
                    (canonicalMessage msg now rand) st.pendingMessages }).2.countP
        (fun e => e.1 == ws && e.2.type == "message_confirmed") = 0 := by
      refine List.countP_eq_zero.mpr ?_
      intro e he hpred
      simp only [Bool.and_eq_true, beq_iff_eq] at hpred
      rcases broadcastLoop_log_char connOpen connSendOk now fuel
        (canonicalMessage msg now rand) (some ws) _ _ e he with hp | ⟨h1, _, _, _, _⟩
      · rw [hpred.2] at hp
        exact (by decide : ¬("message_confirmed" = "presence_update")) hp
      · have h2 : e.2.type = "new_message" := by rw [h1, canonicalMessage_type, hty]
        rw [hpred.2] at h2
        exact (by decide : ¬("message_confirmed" = "new_message")) h2
    rw [hz]
    simp [confirmEvent_type]
  · rw [List.countP_cons]
    have hne : ¬(confirmEvent msg now rand = canonicalMessage msg now rand) := by
      intro h
      have h2 := congrArg WSMessage.type h
      rw [confirmEvent_type, canonicalMessage_type, hty] at h2
      exact (by decide : ¬("message_confirmed" = "new_message")) h2
    have hz := broadcastLoop_count_zero connOpen connSendOk now fuel
      (canonicalMessage msg now rand) (some ws) (mapSet ws msg.userId st.clients)
      { st with clients := mapSet ws msg.userId st.clients,
                messagesInMemory := st.messagesInMemory ++ [canonicalMessage msg now rand],
                pendingMessages := mapSet (mkMessageId now rand)
                  (canonicalMessage msg now rand) st.pendingMessages }
      ws htyc (Or.inl rfl)
    dsimp only [broadcastMessage]
    rw [hz]
    simp [hne]
  · intro d ud hm hd ho hs
    rw [List.countP_cons]
    have hone := broadcastLoop_count_one connOpen connSendOk now fuel
      (canonicalMessage msg now rand) (some ws) (mapSet ws msg.userId st.clients)
      { st with clients := mapSet ws msg.userId st.clients,
                messagesInMemory := st.messagesInMemory ++ [canonicalMessage msg now rand],
                pendingMessages := mapSet (mkMessageId now rand)
                  (canonicalMessage msg now rand) st.pendingMessages }
      d ud htyc hnd hm (mapGet_isSome_of_mem hm) (by simpa using hd) ho hs hfuel
    dsimp only [broadcastMessage]
    rw [hone]
    have hwd : ¬(ws = d) := fun h => hd h.symm
    simp [hwd]

/-- C2 witness: two open working connections, jane on 1 and bob on 2; jane
sends a new_message over connection 1, which replies exactly one confirmation
to 1, broadcasts exactly one canonical copy to 2, and sends no canonical copy
back to 1. -/
theorem c2_confirmation_uniqueness_witness :
    ((handleWsMessage (fun _ => true) (fun _ => true) 5 20 "ab" 1
        { type := "new_message", userId := "jane", content := some "hi",
          channelId := some "1", timestamp := 0 }
        { clients := [(1, "jane"), (2, "bob")] }).2.countP
        (fun e => e.1 == 1 && e.2.type == "message_confirmed") = 1) ∧
      ((handleWsMessage (fun _ => true) (fun _ => true) 5 20 "ab" 1
        { type := "new_message", userId := "jane", content := some "hi",
          channelId := some "1", timestamp := 0 }
        { clients := [(1, "jane"), (2, "bob")] }).2.countP
        (fun e => e.1 == 1 && e.2 == canonicalMessage
          { type := "new_message", userId := "jane", content := some "hi",
            channelId := some "1", timestamp := 0 } 5 "ab") = 0) ∧
      (∀ d ud, (d, ud) ∈ mapSet 1 "jane" [(1, "jane"), (2, "bob")] → d ≠ 1 →
        (fun _ => true : Nat → Bool) d = true → (fun _ => true : Nat → Bool) d = true →
        (handleWsMessage (fun _ => true) (fun _ => true) 5 20 "ab" 1
          { type := "new_message", userId := "jane", content := some "hi",
            channelId := some "1", timestamp := 0 }
          { clients := [(1, "jane"), (2, "bob")] }).2.countP
          (fun e => e.1 == d && e.2 == canonicalMessage
            { type := "new_message", userId := "jane", content := some "hi",
              channelId := some "1", timestamp := 0 } 5 "ab") = 1) :=
  c2_confirmation_uniqueness (fun _ => true) (fun _ => true) 5 20 "ab" 1
    { type := "new_message", userId := "jane", content := some "hi",
      channelId := some "1", timestamp := 0 }
    { clients := [(1, "jane"), (2, "bob")] }
    rfl (by decide) rfl rfl (by decide) (by unfold enoughFuel; decide)

/-- C6: evicting a connection that has already been evicted is a no-op — the
second cleanupClient call raises nothing, returns the state of the first call
unchanged, registry and presence store included, and broadcasts no second
presence offline event; evicting twice therefore equals evicting once. -/
theorem c6_eviction_idempotent (connOpen connSendOk : Nat → Bool)
    (now now2 fuel fuel2 : Nat) (ws : Nat) (st : ServerState) :
    cleanupClient connOpen connSendOk now2 fuel2 ws
        (cleanupClient connOpen connSendOk now fuel ws st).1 =
      ((cleanupClient connOpen connSendOk now fuel ws st).1, []) := by
  have hnone : mapGet ws (cleanupClient connOpen connSendOk now fuel ws st).1.clients =
      none := by
    rw [cleanupClient]
    split
    · rename_i heq
      exact heq
    · rename_i userId heq
      dsimp only
      exact broadcastLoop_mapGet_none connOpen connSendOk now fuel (offlineEvent userId now)
        none _ _ ws (mapGet_mapDel_self ws st.clients)
  rw [cleanupClient, hnone]

/-- C3, counterexample: the WebSocket intake accepts a new_message whose
content is a single space — empty after trimming — and whose parentId
references no existing message (the in-memory log of the input state is
empty): a message_confirmed reply is sent instead of the rejection the claim
requires. The handler checks only JavaScript truthiness of the content and
performs no parent existence check; the existence check lives only on the
HTTP POST route. -/
theorem c3_untrimmed_orphan_accepted :
    ((handleWsMessage (fun _ => true) (fun _ => true) 5 20 "ab" 1
        { type := "new_message", userId := "u1", content := some " ",
          parentId := some "ghost", timestamp := 0 }
        { clients := [(1, "u1")] }).2.countP
        (fun e => e.1 == 1 && e.2.type == "message_confirmed") = 1) ∧
      jsTrim " " = "" := by
  constructor
  · decide
  · decide

/-- C3 (amended): the WebSocket intake validates by JavaScript truthiness
only — an inbound new_message produces a message_confirmed reply iff its
userId is non-empty, its content is present and non-empty without any
trimming, and the send to the originator succeeds; no parent existence check
is performed on this path (that check exists only on the HTTP POST route),
and a rejected event is terminal: nothing is sent at all. -/
theorem c3_ws_intake_validation (connOpen connSendOk : Nat → Bool)
    (now fuel : Nat) (rand : String) (ws : Nat) (msg : WSMessage) (st : ServerState)
    (hty : msg.type = "new_message") :
    ((∃ e ∈ (handleWsMessage connOpen connSendOk now fuel rand ws msg st).2,
        e.2.type = "message_confirmed") ↔
      (msg.userId ≠ "" ∧ strTruthy msg.content = true ∧ connSendOk ws = true)) ∧
      ((msg.userId = "" ∨ strTruthy msg.content = false ∨ connSendOk ws = false) →
        (handleWsMessage connOpen connSendOk now fuel rand ws msg st).2 = []) := by
  by_cases h1 : msg.userId = ""
  · have hres : handleWsMessage connOpen connSendOk now fuel rand ws msg st = (st, []) := by
      rw [handleWsMessage, if_pos (Or.inr h1)]
    rw [hres]
    constructor
    · constructor
      · rintro ⟨e, he, _⟩
        simp at he
      · rintro ⟨hu, _, _⟩
        exact absurd h1 hu
    · intro _
      rfl
  · by_cases h2 : strTruthy msg.content = true
    · by_cases h3 : connSendOk ws = true
      · rw [handleWsMessage_accepted connOpen connSendOk now fuel rand ws msg st hty h1 h2 h3]
        constructor
        · constructor
          · intro _
            exact ⟨h1, h2, h3⟩
          · intro _
            exact ⟨(ws, confirmEvent msg now rand), List.mem_cons_self _ _,
              confirmEvent_type msg now rand⟩
        · rintro (h | h | h)
          · exact absurd h h1
          · rw [h2] at h
            exact absurd h (by decide)
          · rw [h3] at h
            exact absurd h (by decide)
      · have hres : (handleWsMessage connOpen connSendOk now fuel rand ws msg st).2 = [] := by
          rw [handleWsMessage, if_neg (by simp [hty, h1]), if_pos hty,
            if_neg (by simp [h2]), if_neg h3]
        constructor
        · constructor
          · rintro ⟨e, he, _⟩
            rw [hres] at he
            simp at he
          · rintro ⟨_, _, hc⟩
            exact absurd hc h3
        · intro _
          exact hres
    · have h2f : strTruthy msg.content = false := by
        revert h2
        cases strTruthy msg.content <;> simp
      have hres : (handleWsMessage connOpen connSendOk now fuel rand ws msg st).2 = [] := by
        rw [handleWsMessage, if_neg (by simp [hty, h1]), if_pos hty, if_pos h2f]
      constructor
      · constructor
        · rintro ⟨e, he, _⟩
          rw [hres] at he
          simp at he
        · rintro ⟨_, hc, _⟩
          exact absurd hc h2
      · intro _
        exact hres

/-- C3 amended witness: connection 1 declaring user u1 with content "x" and a
working transport is confirmed; the same event with empty content yields an
empty send log. -/
theorem c3_ws_intake_validation_witness :
    ((∃ e ∈ (handleWsMessage (fun _ => true) (fun _ => true) 5 20 "ab" 1
        { type := "new_message", userId := "u1", content := some "x", timestamp := 0 }
        { clients := [(1, "u1")] }).2,
        e.2.type = "message_confirmed") ↔
      (("u1" : String) ≠ "" ∧ strTruthy (some "x") = true ∧
        (fun _ => true : Nat → Bool) 1 = true)) ∧
      ((("u1" : String) = "" ∨ strTruthy (some "x") = false ∨
          (fun _ => true : Nat → Bool) 1 = false) →
        (handleWsMessage (fun _ => true) (fun _ => true) 5 20 "ab" 1
          { type := "new_message", userId := "u1", content := some "x", timestamp := 0 }
          { clients := [(1, "u1")] }).2 = []) :=
  c3_ws_intake_validation (fun _ => true) (fun _ => true) 5 20 "ab" 1
    { type := "new_message", userId := "u1", content := some "x", timestamp := 0 }
    { clients := [(1, "u1")] } rfl

/-- C4, counterexample: in a concrete accepted run both events the hub sends
— the message_confirmed reply and the canonical new_message broadcast — carry
the id msg_5_ab, which is exactly the locally synthesized mkMessageId built
from the hub clock and random suffix; the WebSocket intake involves no
durable store operation at all (it is self-contained in-memory state), so the
canonical id is not the one assigned by any external durable append, and the
hub does issue a locally synthesized id as canonical. -/
theorem c4_locally_synthesized_canonical_id :
    ((handleWsMessage (fun _ => true) (fun _ => true) 5 20 "ab" 1
        { type := "new_message", userId := "jane", content := some "hi",
          channelId := some "1", timestamp := 0 }
        { clients := [(1, "jane"), (2, "bob")] }).2.map (fun e => e.2.id) =
      [some "msg_5_ab", some "msg_5_ab"]) ∧
      mkMessageId 5 "ab" = "msg_5_ab" := by
  constructor
  · decide
  · rfl

/-- C4 (amended): for every accepted new_message, the canonical id and
timestamp carried by the message_confirmed reply and by every canonical
new_message broadcast entry are synthesized locally by the hub — mkMessageId
from its own clock and random suffix, and its own receive timestamp; no
external durable store takes part in the WebSocket intake, and confirmation
and broadcast agree on this single locally synthesized id. -/
theorem c4_canonical_id_provenance (connOpen connSendOk : Nat → Bool)
    (now fuel : Nat) (rand : String) (ws : Nat) (msg : WSMessage) (st : ServerState)
    (hty : msg.type = "new_message") (huid : msg.userId ≠ "")
    (hct : strTruthy msg.content = true) (hsend : connSendOk ws = true) :
    ((handleWsMessage connOpen connSendOk now fuel rand ws msg st).2.head? =
        some (ws, confirmEvent msg now rand)) ∧
      (confirmEvent msg now rand).id = some (mkMessageId now rand) ∧
      (confirmEvent msg now rand).timestamp = now ∧
      ∀ e ∈ (handleWsMessage connOpen connSendOk now fuel rand ws msg st).2,
        e.2.type = "new_message" →
          e.2.id = some (mkMessageId now rand) ∧ e.2.timestamp = now := by
  rw [handleWsMessage_accepted connOpen connSendOk now fuel rand ws msg st hty huid hct hsend]
  refine ⟨rfl, rfl, rfl, ?_⟩
  intro e he htype
  rcases List.mem_cons.mp he with h | h
  · rw [h] at htype
    rw [confirmEvent_type] at htype
    exact absurd htype (by decide)
  · rcases broadcastLoop_log_char connOpen connSendOk now fuel
      (canonicalMessage msg now rand) (some ws) _ _ e h with hp | ⟨h1, _, _, _, _⟩
    · rw [htype] at hp
      exact absurd hp (by decide)
    · rw [h1]
      exact ⟨rfl, rfl⟩

/-- C4 amended witness: the concrete run of the counterexample seen through
the amended statement. -/
theorem c4_canonical_id_provenance_witness :
    ((handleWsMessage (fun _ => true) (fun _ => true) 5 20 "ab" 1
        { type := "new_message", userId := "jane", content := some "hi",
          channelId := some "1", timestamp := 0 }
        { clients := [(1, "jane"), (2, "bob")] }).2.head? =
        some (1, confirmEvent
          { type := "new_message", userId := "jane", content := some "hi",
            channelId := some "1", timestamp := 0 } 5 "ab")) ∧
      (confirmEvent
          { type := "new_message", userId := "jane", content := some "hi",
            channelId := some "1", timestamp := 0 } 5 "ab").id =
        some (mkMessageId 5 "ab") ∧
      (confirmEvent
          { type := "new_message", userId := "jane", content := some "hi",
            channelId := some "1", timestamp := 0 } 5 "ab").timestamp = 5 ∧
      ∀ e ∈ (handleWsMessage (fun _ => true) (fun _ => true) 5 20 "ab" 1
          { type := "new_message", userId := "jane", content := some "hi",
            channelId := some "1", timestamp := 0 }
          { clients := [(1, "jane"), (2, "bob")] }).2,
        e.2.type = "new_message" →
          e.2.id = some (mkMessageId 5 "ab") ∧ e.2.timestamp = 5 :=
  c4_canonical_id_provenance (fun _ => true) (fun _ => true) 5 20 "ab" 1
    { type := "new_message", userId := "jane", content := some "hi",
      channelId := some "1", timestamp := 0 }
    { clients := [(1, "jane"), (2, "bob")] } rfl (by decide) rfl rfl

/-- C9: for every well-formed inbound event — any type, with a non-empty
self-declared userId — handled on a connection whose own sends succeed, the
registry afterwards maps that connection to the userId the event claims,
whatever the prior mapping was: identity comes from each message rather than
from any handshake, and every event kind re-identifies the connection before
dispatch. -/
theorem c9_identity_from_messages (connOpen connSendOk : Nat → Bool)
    (now fuel : Nat) (rand : String) (ws : Nat) (msg : WSMessage) (st : ServerState)
    (hty : msg.type ≠ "") (huid : msg.userId ≠ "") (hsend : connSendOk ws = true) :
    mapGet ws (handleWsMessage connOpen connSendOk now fuel rand ws msg st).1.clients =
      some msg.userId := by
  rw [handleWsMessage, if_neg (by simp [hty, huid])]
  dsimp only
  by_cases h1 : msg.type = "new_message"
  · rw [if_pos h1]
    by_cases h2 : strTruthy msg.content = false
    · rw [if_pos h2]
      exact mapGet_mapSet_self ws msg.userId st.clients
    · rw [if_neg h2, if_pos hsend]
      dsimp only [broadcastMessage]
      rw [broadcastLoop_mapGet_sendOk connOpen connSendOk now fuel _ _ _ _ ws hsend]
      exact mapGet_mapSet_self ws msg.userId st.clients
  · rw [if_neg h1]
    by_cases h3 : msg.type = "presence_update"
    · rw [if_pos h3]
      by_cases h4 : strTruthy msg.status = false
      · rw [if_pos h4]
        exact mapGet_mapSet_self ws msg.userId st.clients
      · rw [if_neg h4]
        dsimp only [broadcastMessage]
        rw [broadcastLoop_mapGet_sendOk connOpen connSendOk now fuel _ _ _ _ ws hsend]
        exact mapGet_mapSet_self ws msg.userId st.clients
    · rw [if_neg h3]
      by_cases h5 : msg.type = "typing_indicator"
      · rw [if_pos h5]
        dsimp only [broadcastMessage]
        rw [broadcastLoop_mapGet_sendOk connOpen connSendOk now fuel _ _ _ _ ws hsend]
        exact mapGet_mapSet_self ws msg.userId st.clients
      · rw [if_neg h5]
        dsimp only [broadcastMessage]
        rw [broadcastLoop_mapGet_sendOk connOpen connSendOk now fuel _ _ _ _ ws hsend]
        exact mapGet_mapSet_self ws msg.userId st.clients

/-- C9 witness: connection 1, registered to alice, sends a typing_indicator
claiming to be mallory; afterwards the registry maps connection 1 to
mallory. -/
theorem c9_identity_from_messages_witness :
    mapGet 1 (handleWsMessage (fun _ => true) (fun _ => true) 5 20 "ab" 1
        { type := "typing_indicator", userId := "mallory", isTyping := some true,
          timestamp := 0 }
        { clients := [(1, "alice")] }).1.clients = some "mallory" :=
  c9_identity_from_messages (fun _ => true) (fun _ => true) 5 20 "ab" 1
    { type := "typing_indicator", userId := "mallory", isTyping := some true,
      timestamp := 0 }
    { clients := [(1, "alice")] } (by decide) (by decide) rfl

/-- C10: when the confirmation send to the originator throws, the catch block
makes the intake atomic: the message just pushed onto messagesInMemory is
popped again, the pendingMessages entry is deleted, nothing is broadcast, and
the presence store is untouched — the in-memory message state is as if the
event had never arrived (given the fresh message id does not collide with an
existing pending key). -/
theorem c10_intake_atomicity (connOpen connSendOk : Nat → Bool)
    (now fuel : Nat) (rand : String) (ws : Nat) (msg : WSMessage) (st : ServerState)
    (hty : msg.type = "new_message") (huid : msg.userId ≠ "")
    (hct : strTruthy msg.content = true) (hsend : connSendOk ws = false)
    (hfresh : mapGet (mkMessageId now rand) st.pendingMessages = none) :
    ((handleWsMessage connOpen connSendOk now fuel rand ws msg st).1.messagesInMemory =
        st.messagesInMemory) ∧
      ((handleWsMessage connOpen connSendOk now fuel rand ws msg st).1.pendingMessages =
        st.pendingMessages) ∧
      ((handleWsMessage connOpen connSendOk now fuel rand ws msg st).1.userPresence =
        st.userPresence) ∧
      (handleWsMessage connOpen connSendOk now fuel rand ws msg st).2 = [] := by
  rw [handleWsMessage, if_neg (by simp [hty, huid]), if_pos hty, if_neg (by simp [hct]),
    if_neg (by simp [hsend])]
  refine ⟨?_, ?_, rfl, rfl⟩
  · dsimp only
    exact List.dropLast_concat
  · dsimp only
    exact mapDel_mapSet_of_none (canonicalMessage msg now rand) st.pendingMessages hfresh

/-- C10 witness: jane sends a valid new_message over connection 1 whose
transport throws on the confirmation send; the handler leaves messages,
pending entries and presence untouched and sends nothing. -/
theorem c10_intake_atomicity_witness :
    ((handleWsMessage (fun _ => true) (fun _ => false) 5 20 "ab" 1
        { type := "new_message", userId := "jane", content := some "hi",
          timestamp := 0 }
        { clients := [(1, "jane"), (2, "bob")] }).1.messagesInMemory =
        ({ clients := [(1, "jane"), (2, "bob")] } : ServerState).messagesInMemory) ∧
      ((handleWsMessage (fun _ => true) (fun _ => false) 5 20 "ab" 1
        { type := "new_message", userId := "jane", content := some "hi",
          timestamp := 0 }
        { clients := [(1, "jane"), (2, "bob")] }).1.pendingMessages =
        ({ clients := [(1, "jane"), (2, "bob")] } : ServerState).pendingMessages) ∧
      ((handleWsMessage (fun _ => true) (fun _ => false) 5 20 "ab" 1
        { type := "new_message", userId := "jane", content := some "hi",
          timestamp := 0 }
        { clients := [(1, "jane"), (2, "bob")] }).1.userPresence =
        ({ clients := [(1, "jane"), (2, "bob")] } : ServerState).userPresence) ∧
      (handleWsMessage (fun _ => true) (fun _ => false) 5 20 "ab" 1
        { type := "new_message", userId := "jane", content := some "hi",
          timestamp := 0 }
        { clients := [(1, "jane"), (2, "bob")] }).2 = [] :=
  c10_intake_atomicity (fun _ => true) (fun _ => false) 5 20 "ab" 1
    { type := "new_message", userId := "jane", content := some "hi", timestamp := 0 }
    { clients := [(1, "jane"), (2, "bob")] } rfl (by decide) rfl rfl (by decide)

end ChatGenius
